import Mathlib

/-!
Shallow embedding of the authenticated, auto-reconnecting RPC-over-WebSocket
client of the nitro-aura repository
(`src/server/src/services/nitroliteRPC.js`, classes `NitroliteRPCClient`
and `ServerWebSocketClient`).

Modelling conventions:
* JSON values are the inductive `JVal`; `JSON.parse` of an inbound frame is
  supplied as an `Option JVal` (`none` models a parse that throws).
* The mutable fields of the JS object become the record `RPCState`.  Promise
  settlements of callers are recorded in the ghost log `settled`; request ids
  that reached `ws.send` are recorded in the ghost log `sentIds`; ids consumed
  by `this.nextRequestId++` in the ghost log `allocatedIds`; every
  `setStatus` call is appended to the ghost log `statusLog`; every scheduled
  reconnect delay to `scheduledDelays`.
* Timers: `pingIntervalSet` models the keepalive interval being armed,
  `reconnectTimeoutSet` the pending reconnect timer together with its delay.
  The per-request `setTimeout` of `sendRequest` is not cancellable in the
  source, so its firing is an environment event (`Event.reqTimeout`).
* External effects (signing, the actual socket) are oracles: a signing
  attempt's outcome is a parameter, transport events are `Event`s chosen by
  the environment.
-/

namespace NitroAura

/-- JSON-like JavaScript values as they appear in wire frames. -/
inductive JVal where
  | null : JVal
  | bool (b : Bool) : JVal
  | num (n : Int) : JVal
  | str (s : String) : JVal
  | arr (xs : List JVal) : JVal
  | obj (fields : List (String × JVal)) : JVal

/-- Property access `v.k`: `some` when `v` is an object with field `k`. -/
def jget : JVal → String → Option JVal
  | .obj fields, k => (fields.find? (fun p => p.1 == k)).map Prod.snd
  | _, _ => none

/-- JavaScript truthiness of a value. -/
def truthy : JVal → Bool
  | .null => false
  | .bool b => b
  | .num n => n != 0
  | .str s => s != ""
  | .arr _ => true
  | .obj _ => true

mutual
/-- JavaScript string conversion as used by template literals. -/
def jsToString : JVal → String
  | .null => "null"
  | .bool b => cond b "true" "false"
  | .num n => toString n
  | .str s => s
  | .arr xs => jsToStringList xs
  | .obj _ => "[object Object]"

def jsToStringList : List JVal → String
  | [] => ""
  | [x] => jsToString x
  | x :: y :: xs => jsToString x ++ "," ++ jsToStringList (y :: xs)
end

/-- The `WSStatus` enumeration of the source (`nitroliteRPC.js`, lines 38-46). -/
inductive WSStatus where
  | connected
  | connecting
  | disconnected
  | reconnecting
  | reconnectFailed
  | authFailed
  | authenticating
deriving DecidableEq, Repr

/-- How a caller's promise for one request was settled. -/
inductive SettleResult where
  | resolved (payload : JVal)
  | rejected (msg : String)

/-- The mutable state of one `NitroliteRPCClient` (constructor, lines 50-69),
with ghost logs for settlements, wire sends, id allocation, status
transitions and scheduled reconnect delays. -/
structure RPCState where
  status : WSStatus
  reconnectAttempts : Nat
  maxReconnectAttempts : Nat
  reconnectDelay : Nat
  reconnectTimeoutSet : Option Nat
  pingIntervalSet : Bool
  wsPresent : Bool
  wsOpen : Bool
  pending : List Int
  nextRequestId : Int
  channel : Option JVal
  settled : List (Int × SettleResult)
  sentIds : List Int
  allocatedIds : List Int
  statusLog : List WSStatus
  scheduledDelays : List Nat

/-- The state right after `new NitroliteRPCClient(url, privateKey)`. -/
def initState : RPCState where
  status := .disconnected
  reconnectAttempts := 0
  maxReconnectAttempts := 5
  reconnectDelay := 1000
  reconnectTimeoutSet := none
  pingIntervalSet := false
  wsPresent := false
  wsOpen := false
  pending := []
  nextRequestId := 1
  channel := none
  settled := []
  sentIds := []
  allocatedIds := []
  statusLog := []
  scheduledDelays := []

/-- `setStatus` (lines 132-137): records the new status and notifies
observers (observers are external, so only the log changes). -/
def setStatus (s : RPCState) (st : WSStatus) : RPCState :=
  { s with status := st, statusLog := s.statusLog ++ [st] }

/-- `close()` (lines 602-613): clears the keepalive interval and the
reconnect timer, closes and drops the socket, and sets status
`disconnected`.  It does not touch `pendingRequests`. -/
def close (s : RPCState) : RPCState :=
  let s1 := { s with pingIntervalSet := false, reconnectTimeoutSet := none }
  let s2 := { s1 with wsPresent := false, wsOpen := false }
  setStatus s2 .disconnected

/-- `handleReconnect()` (lines 582-599): when the attempt counter has reached
the maximum the status becomes `reconnect_failed` and nothing is scheduled;
otherwise the counter is incremented, status becomes `reconnecting` and a
reconnect is scheduled after `reconnectDelay * attempts`. -/
def handleReconnect (s : RPCState) : RPCState :=
  if s.maxReconnectAttempts ≤ s.reconnectAttempts then
    setStatus s .reconnectFailed
  else
    let attempts := s.reconnectAttempts + 1
    let delay := s.reconnectDelay * attempts
    let s1 := setStatus { s with reconnectAttempts := attempts } .reconnecting
    { s1 with reconnectTimeoutSet := some delay,
              scheduledDelays := s1.scheduledDelays ++ [delay] }

/-- The `ws.on("close")` handler registered in `connect()` (lines 118-123):
status `disconnected`, keepalive interval cleared, then `handleReconnect()`.
The handler stays attached to the socket object, so it also runs for the
close event produced by an explicit `close()`. -/
def onWsClose (s : RPCState) : RPCState :=
  handleReconnect { setStatus s .disconnected with
                      pingIntervalSet := false, wsOpen := false }

/-- `connect()` (lines 82-129), synchronous part: a no-op while `connected`
or `connecting`, otherwise status `connecting` and a fresh socket.  (The
synchronous-throw path of `new WebSocket` is not modelled.) -/
def connect (s : RPCState) : RPCState :=
  if s.status = .connected ∨ s.status = .connecting then s
  else { setStatus s .connecting with wsPresent := true, wsOpen := false }

/-- Settling one tracked request: the entry is removed from
`pendingRequests` and the caller's promise settles with `x`.  Shared shape
of the response branch (resolve then delete, lines 484-486), the error
branch (reject then delete, lines 494-496) and the request timeout (delete
then reject, lines 547-549). -/
def settleOne (s : RPCState) (rid : Int) (x : SettleResult) : RPCState :=
  { s with pending := s.pending.erase rid,
           settled := s.settled ++ [(rid, x)] }

/-- Settle `rid` when it is tracked, else do nothing — the
`pendingRequests.has(requestId)` guard common to all three settlers. -/
def settleIfPending (s : RPCState) (rid : Int) (x : SettleResult) : RPCState :=
  if rid ∈ s.pending then settleOne s rid x else s

/-- The request id a `res`/`err` envelope field acts on: the field must be
an array of length ≥ 3 (`Array.isArray(message.res) && message.res.length
>= 3`) and its element 0 is the id used as the `pendingRequests` key; a
non-numeric id matches no tracked key. -/
def envelopeId (v : Option JVal) : Option Int :=
  match v with
  | some (.arr xs) =>
      if 3 ≤ xs.length then
        match xs.head? with
        | some (.num rid) => some rid
        | _ => none
      else none
  | _ => none

/-- The payload `message.res[2]` a response resolves with (line 485). -/
def resPayload (v : Option JVal) : JVal :=
  match v with
  | some (.arr xs) => xs[2]?.getD .null
  | _ => .null

/-- The message of the error a remote error envelope rejects with:
``new Error(`Error ${message.err[1]}: ${message.err[2]}`)`` (line 495). -/
def errMessage (v : Option JVal) : String :=
  match v with
  | some (.arr xs) =>
      "Error " ++ jsToString (xs[1]?.getD .null) ++ ": " ++
        jsToString (xs[2]?.getD .null)
  | _ => ""

/-- The `message.res` branch of `handleMessage` (lines 481-488): a response
envelope referencing a tracked id resolves that request with `res[2]` and
deletes it. -/
def resBranch (s : RPCState) (v : Option JVal) : RPCState :=
  match envelopeId v with
  | some rid => settleIfPending s rid (.resolved (resPayload v))
  | none => s

/-- The `message.err` branch of `handleMessage` (lines 491-498): an error
envelope referencing a tracked id rejects that request with a constructed
error carrying the envelope's code and message, and deletes it. -/
def errBranch (s : RPCState) (v : Option JVal) : RPCState :=
  match envelopeId v with
  | some rid => settleIfPending s rid (.rejected (errMessage v))
  | none => s

/-- The `message.type === "channel_created"` branch (lines 501-505). -/
def channelBranch (s : RPCState) (m : JVal) : RPCState :=
  match jget m "type" with
  | some (.str t) =>
      if t = "channel_created" then { s with channel := jget m "channel" }
      else s
  | _ => s

/-- `handleMessage(data)` (lines 470-509).  The input is the result of
`JSON.parse` on the frame; `none` models a parse that throws, which is
caught and only logged.  Observer callbacks run first and do not touch the
client state. -/
def handleMessage (s : RPCState) (m : Option JVal) : RPCState :=
  match m with
  | none => s
  | some msg =>
      channelBranch (errBranch (resBranch s (jget msg "res")) (jget msg "err")) msg

/-- The timeout armed by `sendRequest` for request `rid` (lines 546-551):
when it fires and the id is still tracked, the entry is deleted and the
caller rejected with "Request timeout"; otherwise it is a no-op. -/
def fireTimeout (s : RPCState) (rid : Int) : RPCState :=
  settleIfPending s rid (.rejected "Request timeout")

/-- Outcome of the external effects inside one `sendRequest` call: signing
and serialisation succeed and `ws.send` succeeds, signing throws, or
`ws.send` throws. -/
inductive SendOutcome where
  | ok
  | signThrow
  | sendThrow
deriving DecidableEq, Repr

/-- Lines 522-529 of `sendRequest`: when the status is not `connected` the
call only logs a warning and proceeds anyway, first overwriting an
`authenticating` status with `connected`. -/
def statusFix (s : RPCState) : RPCState :=
  if s.status ≠ WSStatus.connected then
    if s.status = WSStatus.authenticating then setStatus s .connected else s
  else s

/-- `NitroliteRPCClient.sendRequest(method, params)` (lines 512-560).
Guards: throws when `this.ws` is null or `readyState` is not OPEN.  Then
`statusFix` runs.  Past the guards the id is consumed by `nextRequestId++`;
on a signing throw the caller is rejected before the entry is stored; on a
send throw the freshly stored entry is deleted again and the caller
rejected; on success the entry is stored, the timeout armed and the frame
sent. -/
def sendRequest (s : RPCState) (o : SendOutcome) : RPCState × Except String Int :=
  if ¬ s.wsPresent then
    (s, .error "WebSocket instance not initialized")
  else if ¬ s.wsOpen then
    (s, .error "WebSocket not in OPEN state")
  else
    let s1 := statusFix s
    let rid := s1.nextRequestId
    let s2 := { s1 with nextRequestId := rid + 1,
                        allocatedIds := s1.allocatedIds ++ [rid] }
    match o with
    | .signThrow =>
        ({ s2 with settled := s2.settled ++ [(rid, .rejected "signing failed")] },
         .error "signing failed")
    | .sendThrow =>
        ({ s2 with settled := s2.settled ++ [(rid, .rejected "send failed")] },
         .error "send failed")
    | .ok =>
        ({ s2 with pending := s2.pending ++ [rid],
                   sentIds := s2.sentIds ++ [rid] },
         .ok rid)

/-- `ServerWebSocketClient.sendRequest(method, params)` (lines 979-1023):
this duplicate implementation throws "WebSocket not connected" whenever the
socket is missing or the status is not `connected`; past the guard it
behaves like the other client. -/
def serverSendRequest (s : RPCState) (o : SendOutcome) : RPCState × Except String Int :=
  if ¬ s.wsPresent ∨ s.status ≠ WSStatus.connected then
    (s, .error "WebSocket not connected")
  else
    let rid := s.nextRequestId
    let s2 := { s with nextRequestId := rid + 1,
                       allocatedIds := s.allocatedIds ++ [rid] }
    match o with
    | .signThrow =>
        ({ s2 with settled := s2.settled ++ [(rid, .rejected "signing failed")] },
         .error "signing failed")
    | .sendThrow =>
        ({ s2 with settled := s2.settled ++ [(rid, .rejected "send failed")] },
         .error "send failed")
    | .ok =>
        ({ s2 with pending := s2.pending ++ [rid],
                   sentIds := s2.sentIds ++ [rid] },
         .ok rid)

/-- Environment events driving one session: a `sendRequest` call with given
external outcome, an inbound frame, a per-request timeout firing, an
explicit `close()`, the socket's close event, the reconnect timer firing
(which runs `connect()`), the socket's open event (which starts
authentication), and the handshake settling. -/
inductive Event where
  | sendReq (o : SendOutcome)
  | recv (m : Option JVal)
  | reqTimeout (rid : Int)
  | explicitClose
  | wsClosed
  | reconnectTimer
  | wsOpen
  | authResult (ok : Bool)

/-- One step of the session: dispatch of an environment event to the
corresponding handler of the source. -/
def step (s : RPCState) : Event → RPCState
  | .sendReq o => (sendRequest s o).1
  | .recv m => handleMessage s m
  | .reqTimeout rid => fireTimeout s rid
  | .explicitClose => close s
  | .wsClosed => onWsClose s
  | .reconnectTimer => connect { s with reconnectTimeoutSet := none }
  | .wsOpen => setStatus { s with wsOpen := true } .authenticating
  | .authResult true =>
      { setStatus s .connected with reconnectAttempts := 0, pingIntervalSet := true }
  | .authResult false => setStatus s .authFailed

/-- Running a list of events from a state. -/
def run (s : RPCState) (tr : List Event) : RPCState :=
  tr.foldl step s

/-- Coerce a property-access result to a string; challenge fields are
modelled as strings (on a non-string truthy value the source would throw a
TypeError at `.includes`, which also fails the handshake). -/
def asStr : Option JVal → Option String
  | some (.str s) => some s
  | _ => none

/-- JavaScript `a || b` for two (possibly undefined) string reads, with `""`
standing for both the empty string and `undefined`. -/
def jsOr (a b : Option String) : String :=
  match a with
  | some s => if s ≠ "" then s else b.getD ""
  | none => b.getD ""

/-- The `data` argument given to the auth-verify signing function: a JS
array, a string together with the result of `JSON.parse` on it (`none`
models a parse that throws), a plain object, or anything else. -/
inductive SignData where
  | jarr (xs : List JVal)
  | jstr (s : String) (parsed : Option JVal)
  | jobj (fields : List (String × JVal))
  | jother

/-- The challenge-extraction phase of `eip712SigningFunction` inside
`authenticate` (lines 308-357): the value of `challengeUUID` after the
branching on the shape of `data`; `""` stands for "nothing assigned".
Note the `catch` branch: an unparseable string is used raw as the
challenge. -/
def extractChallenge : SignData → String
  | .jarr xs =>
      if 3 ≤ xs.length then
        match (xs[2]? : Option JVal) with
        | some (.arr inner) =>
            if 0 < inner.length then
              match inner.head? with
              | some cobj =>
                  if truthy cobj then
                    match asStr (jget cobj "challenge") with
                    | some c => if c ≠ "" then c else ""
                    | none => ""
                  else ""
              | none => ""
            else ""
        | _ => ""
      else ""
  | .jstr s parsed =>
      match parsed with
      | none => s
      | some p =>
          match jget p "res" with
          | some (.arr rs) =>
              match (rs[1]? : Option JVal) with
              | some (.str tag) =>
                  if tag = "auth_challenge" then
                    match (rs[2]? : Option JVal) with
                    | some v2 =>
                        if truthy v2 then
                          jsOr (asStr (jget v2 "challenge_message"))
                               (asStr (jget v2 "challenge"))
                        else ""
                    | none => ""
                  else if tag = "auth_verify" then
                    match (rs[2]? : Option JVal) with
                    | some (.arr vs) =>
                        match vs.head? with
                        | some e =>
                            if truthy e then (asStr (jget e "challenge")).getD ""
                            else ""
                        | none => ""
                    | _ => ""
                  else ""
              | _ => ""
          | _ =>
              match p with
              | .arr ps =>
                  if 3 ≤ ps.length then
                    match (ps[2]? : Option JVal) with
                    | some (.arr inner2) =>
                        match inner2.head? with
                        | some e => (asStr (jget e "challenge")).getD ""
                        | none => ""
                    | _ => ""
                  else ""
              | _ => ""
  | .jobj fields =>
      jsOr (asStr (jget (.obj fields) "challenge"))
           (asStr (jget (.obj fields) "challenge_message"))
  | .jother => ""

/-- The validity test of line 359: `!challengeUUID ||
challengeUUID.includes("[") || challengeUUID.includes("{")`. -/
def challengeInvalid (c : String) : Bool :=
  c = "" || c.data.contains '[' || c.data.contains '{'

/-- Lines 359-362 around the extraction: the challenge that will be placed
into the signed EIP-712 verify message, or the explicit throw. -/
def eip712Challenge (d : SignData) : Except String String :=
  let c := extractChallenge d
  if challengeInvalid c then
    .error "Could not extract valid challenge UUID for EIP-712 signing"
  else .ok c

/-- The two signature schemes of the handshake signing step. -/
inductive SignScheme where
  | eip712
  | messageHash
deriving DecidableEq, Repr

/-- Result of a signing step: the schemes attempted, in order, and the
overall outcome. -/
structure SignRun where
  attempts : List SignScheme
  result : Except String String
deriving Repr

/-- The try/fallback signing phase (lines 383-410, identical to lines
231-258 of `signMessage`): `wallet.signTypedData` over the EIP-712 payload
first; if it throws, `signingKey.sign` over the hashed fallback message; if
that also throws, a combined error built from the EIP-712 error's message
only.  The two external signers are oracles from the challenge (resp. the
fallback message) to their outcome. -/
def signChallengePhase (address ch : String)
    (eipSign fbSign : String → Except String String) : SignRun :=
  match eipSign ch with
  | .ok sig => ⟨[.eip712], .ok sig⟩
  | .error e1 =>
      match fbSign ("Authentication challenge for " ++ address ++ ": " ++ ch) with
      | .ok sig => ⟨[.eip712, .messageHash], .ok sig⟩
      | .error _ =>
          ⟨[.eip712, .messageHash],
           .error ("Both EIP-712 and fallback signing failed: " ++ e1)⟩

/-- The whole `eip712SigningFunction` (lines 305-411): extraction followed
by the try/fallback signing phase. -/
def eip712SigningFunction (address : String) (d : SignData)
    (eipSign fbSign : String → Except String String) : SignRun :=
  match eip712Challenge d with
  | .error e => ⟨[], .error e⟩
  | .ok ch => signChallengePhase address ch eipSign fbSign

/-! ### Request-correlator bookkeeping invariants -/

/-- Number of settlements recorded for request id `r`. -/
def settleCount (s : RPCState) (r : Int) : Nat :=
  (s.settled.map Prod.fst).count r

/-- Well-formedness of pending/settled bookkeeping over the raw
components: tracked ids are distinct and below the id counter, no tracked
id has already been settled, no id has been settled twice, and settled ids
are below the counter. -/
def stateOKcore (p : List Int) (n : Int) (sd : List (Int × SettleResult)) : Prop :=
  p.Nodup ∧
  (∀ r ∈ p, r < n) ∧
  (∀ r ∈ p, r ∉ sd.map Prod.fst) ∧
  (sd.map Prod.fst).Nodup ∧
  (∀ r ∈ sd.map Prod.fst, r < n)

/-- Well-formedness of the pending-request bookkeeping of a session
state. -/
def stateOK (s : RPCState) : Prop :=
  stateOKcore s.pending s.nextRequestId s.settled

/-- A tracked request id is either still pending and unsettled, or no
longer pending and settled exactly once. -/
def liveOrDone (s : RPCState) (r : Int) : Prop :=
  (r ∈ s.pending ∧ settleCount s r = 0) ∨ (r ∉ s.pending ∧ settleCount s r = 1)

/-- The events that can settle request `r`: a response or error envelope
referencing its id, or its own timeout. -/
def eventRefs (r : Int) : Event → Prop
  | .recv none => False
  | .recv (some m) =>
      envelopeId (jget m "res") = some r ∨ envelopeId (jget m "err") = some r
  | .reqTimeout rid => rid = r
  | _ => False

/-! ### Concrete fixtures for the scenario theorems -/

/-- A healthy connected session with no traffic yet (reached by
`connect()` + successful authentication). -/
def connState : RPCState :=
  { initState with
      status := .connected, wsPresent := true, wsOpen := true,
      pingIntervalSet := true }

/-- A connected session with one outstanding request, id 1. -/
def onePendingState : RPCState :=
  { initState with
      status := .connected, wsPresent := true, wsOpen := true,
      pingIntervalSet := true, pending := [1], nextRequestId := 2 }

/-- A connected session with one outstanding request, id 2. -/
def pending2State : RPCState :=
  { initState with
      status := .connected, wsPresent := true, wsOpen := true,
      pingIntervalSet := true, pending := [2], nextRequestId := 3 }

/-- A connected session with one outstanding request, id 7. -/
def pending7State : RPCState :=
  { initState with
      status := .connected, wsPresent := true, wsOpen := true,
      pingIntervalSet := true, pending := [7], nextRequestId := 8 }

/-- An OPEN socket mid-handshake: status `authenticating`. -/
def authState : RPCState :=
  { initState with
      status := .authenticating, wsPresent := true, wsOpen := true,
      nextRequestId := 5 }

/-- Five failed reconnect cycles: each unexpected transport close is
followed by the scheduled retry whose connection attempt fails and closes
again. -/
def failCycles : List Event :=
  [Event.wsClosed, Event.reconnectTimer, Event.wsClosed, Event.reconnectTimer,
   Event.wsClosed, Event.reconnectTimer, Event.wsClosed, Event.reconnectTimer,
   Event.wsClosed, Event.reconnectTimer]

/-- An unexpected close followed by a successful reconnection: scheduled
retry, socket open, handshake success. -/
def reconnectTrace : List Event :=
  [Event.wsClosed, Event.reconnectTimer, Event.wsOpen, Event.authResult true]

/-- The inbound error envelope `{err:[2,42,"bad params",0]}`. -/
def errEnvelope2 : Option JVal :=
  some (JVal.obj [("err",
    JVal.arr [JVal.num 2, JVal.num 42, JVal.str "bad params", JVal.num 0])])

/-- The inbound response envelope `{res:[1,"get_channels",[],0]}`. -/
def resEnvelope1 : Option JVal :=
  some (JVal.obj [("res",
    JVal.arr [JVal.num 1, JVal.str "get_channels", JVal.arr [], JVal.num 0])])

/-- Folding a sequence of `sendRequest` calls, each with its external
signing/send outcome. -/
def runSends (s : RPCState) : List SendOutcome → RPCState
  | [] => s
  | o :: os => runSends (sendRequest s o).1 os

/-- The ids `nextRequestId++` hands out over `k` consecutive calls
starting at `n`. -/
def idsFrom (n : Int) : Nat → List Int
  | 0 => []
  | k + 1 => n :: idsFrom (n + 1) k

/-- The ids that reach `ws.send` for the given outcome sequence starting
at id `n`: exactly the calls whose signing and transport send succeed. -/
def sentFrom (n : Int) : List SendOutcome → List Int
  | [] => []
  | o :: os => (if o = SendOutcome.ok then [n] else []) ++ sentFrom (n + 1) os

theorem settleCount_settleOne_self (s : RPCState) (rid : Int) (x : SettleResult) :
    settleCount (settleOne s rid x) rid = settleCount s rid + 1 := by
  simp [settleCount, settleOne]

theorem settleCount_settleOne_other (s : RPCState) (rid : Int) (x : SettleResult)
    (r : Int) (h : r ≠ rid) :
    settleCount (settleOne s rid x) r = settleCount s r := by
  simp [settleCount, settleOne, List.count_singleton', h]

theorem settleIfPending_stateOK (s : RPCState) (rid : Int) (x : SettleResult)
    (hok : stateOK s) : stateOK (settleIfPending s rid x) := by
  obtain ⟨h1, h2, h3, h4, h5⟩ := hok
  unfold settleIfPending
  by_cases hm : rid ∈ s.pending
  · rw [if_pos hm]
    refine ⟨List.Nodup.erase rid h1, ?_, ?_, ?_, ?_⟩
    · intro r hr
      exact h2 r (List.mem_of_mem_erase hr)
    · intro r hr
      have hrp : r ∈ s.pending := List.mem_of_mem_erase hr
      have hne : r ≠ rid := ((List.Nodup.mem_erase_iff h1).mp hr).1
      simp only [settleOne, List.map_append, List.mem_append]
      rintro (hold | hnew)
      · exact h3 r hrp hold
      · rw [List.map_singleton, List.mem_singleton] at hnew
        exact hne hnew
    · simp only [settleOne, List.map_append, List.map_singleton]
      rw [List.nodup_append]
      refine ⟨h4, List.nodup_singleton _, ?_⟩
      intro a ha hb
      rw [List.mem_singleton] at hb
      rw [hb] at ha
      exact h3 rid hm ha
    · intro r hr
      simp only [settleOne, List.map_append, List.map_singleton,
        List.mem_append, List.mem_singleton] at hr
      rcases hr with hold | hnew
      · exact h5 r hold
      · rw [hnew]
        exact h2 rid hm
  · rw [if_neg hm]
    exact ⟨h1, h2, h3, h4, h5⟩

theorem settleIfPending_frame (s : RPCState) (rid : Int) (x : SettleResult)
    (r : Int) (h : r ≠ rid) :
    (r ∈ (settleIfPending s rid x).pending ↔ r ∈ s.pending) ∧
    settleCount (settleIfPending s rid x) r = settleCount s r := by
  unfold settleIfPending
  by_cases hm : rid ∈ s.pending
  · rw [if_pos hm]
    exact ⟨by simp [settleOne, List.mem_erase_of_ne h],
           settleCount_settleOne_other s rid x r h⟩
  · rw [if_neg hm]
    exact ⟨Iff.rfl, rfl⟩

theorem settleIfPending_done (s : RPCState) (rid : Int) (x : SettleResult)
    (hok : stateOK s) (hld : liveOrDone s rid) :
    settleCount (settleIfPending s rid x) rid = 1 ∧
    rid ∉ (settleIfPending s rid x).pending := by
  unfold settleIfPending
  rcases hld with ⟨hmem, hcnt⟩ | ⟨hmem, hcnt⟩
  · rw [if_pos hmem]
    constructor
    · rw [settleCount_settleOne_self, hcnt]
    · intro habs
      have habs2 := (List.Nodup.mem_erase_iff hok.1).mp habs
      exact habs2.1 rfl
  · rw [if_neg hmem]
    exact ⟨hcnt, hmem⟩

theorem settleIfPending_core (s : RPCState) (rid : Int) (x : SettleResult) :
    (settleIfPending s rid x).nextRequestId = s.nextRequestId := by
  unfold settleIfPending
  split <;> rfl

theorem settleCount_congr {s t : RPCState} (r : Int) (h : t.settled = s.settled) :
    settleCount t r = settleCount s r := by
  unfold settleCount
  rw [h]

theorem stateOK_congr {s t : RPCState} (hp : t.pending = s.pending)
    (hn : t.nextRequestId = s.nextRequestId) (hs : t.settled = s.settled)
    (hok : stateOK s) : stateOK t := by
  unfold stateOK
  rw [hp, hn, hs]
  exact hok

theorem liveOrDone_congr {s t : RPCState} {r : Int}
    (hmem : r ∈ t.pending ↔ r ∈ s.pending)
    (hcnt : settleCount t r = settleCount s r)
    (hld : liveOrDone s r) : liveOrDone t r := by
  rcases hld with ⟨a, b⟩ | ⟨a, b⟩
  · exact Or.inl ⟨hmem.mpr a, by rw [hcnt]; exact b⟩
  · exact Or.inr ⟨fun hx => a (hmem.mp hx), by rw [hcnt]; exact b⟩

/-! Branch-level lemmas for the two inbound-envelope settlers. -/

theorem resBranch_stateOK (s : RPCState) (v : Option JVal) (hok : stateOK s) :
    stateOK (resBranch s v) := by
  unfold resBranch
  cases hv : envelopeId v with
  | none => exact hok
  | some rid => exact settleIfPending_stateOK s rid _ hok

theorem resBranch_frame (s : RPCState) (v : Option JVal) (r : Int)
    (h : envelopeId v ≠ some r) :
    (r ∈ (resBranch s v).pending ↔ r ∈ s.pending) ∧
    settleCount (resBranch s v) r = settleCount s r := by
  unfold resBranch
  cases hv : envelopeId v with
  | none => exact ⟨Iff.rfl, rfl⟩
  | some rid =>
      refine settleIfPending_frame s rid _ r ?_
      intro hr
      rw [← hr] at hv
      exact h hv

theorem resBranch_settle (s : RPCState) (v : Option JVal) (r : Int)
    (hok : stateOK s) (hld : liveOrDone s r) (h : envelopeId v = some r) :
    settleCount (resBranch s v) r = 1 ∧ r ∉ (resBranch s v).pending := by
  unfold resBranch
  rw [h]
  exact settleIfPending_done s r _ hok hld

theorem resBranch_done (s : RPCState) (v : Option JVal) (r : Int)
    (hok : stateOK s)
    (hd : r ∉ s.pending ∧ settleCount s r = 1) :
    settleCount (resBranch s v) r = 1 ∧ r ∉ (resBranch s v).pending := by
  by_cases h : envelopeId v = some r
  · exact resBranch_settle s v r hok (Or.inr hd) h
  · have hf := resBranch_frame s v r h
    exact ⟨by rw [hf.2]; exact hd.2, fun hx => hd.1 (hf.1.mp hx)⟩

theorem resBranch_nextId (s : RPCState) (v : Option JVal) :
    (resBranch s v).nextRequestId = s.nextRequestId := by
  unfold resBranch
  cases envelopeId v with
  | none => rfl
  | some rid => exact settleIfPending_core s rid _

theorem errBranch_stateOK (s : RPCState) (v : Option JVal) (hok : stateOK s) :
    stateOK (errBranch s v) := by
  unfold errBranch
  cases hv : envelopeId v with
  | none => exact hok
  | some rid => exact settleIfPending_stateOK s rid _ hok

theorem errBranch_frame (s : RPCState) (v : Option JVal) (r : Int)
    (h : envelopeId v ≠ some r) :
    (r ∈ (errBranch s v).pending ↔ r ∈ s.pending) ∧
    settleCount (errBranch s v) r = settleCount s r := by
  unfold errBranch
  cases hv : envelopeId v with
  | none => exact ⟨Iff.rfl, rfl⟩
  | some rid =>
      refine settleIfPending_frame s rid _ r ?_
      intro hr
      rw [← hr] at hv
      exact h hv

theorem errBranch_settle (s : RPCState) (v : Option JVal) (r : Int)
    (hok : stateOK s) (hld : liveOrDone s r) (h : envelopeId v = some r) :
    settleCount (errBranch s v) r = 1 ∧ r ∉ (errBranch s v).pending := by
  unfold errBranch
  rw [h]
  exact settleIfPending_done s r _ hok hld

theorem errBranch_done (s : RPCState) (v : Option JVal) (r : Int)
    (hok : stateOK s)
    (hd : r ∉ s.pending ∧ settleCount s r = 1) :
    settleCount (errBranch s v) r = 1 ∧ r ∉ (errBranch s v).pending := by
  by_cases h : envelopeId v = some r
  · exact errBranch_settle s v r hok (Or.inr hd) h
  · have hf := errBranch_frame s v r h
    exact ⟨by rw [hf.2]; exact hd.2, fun hx => hd.1 (hf.1.mp hx)⟩

theorem errBranch_nextId (s : RPCState) (v : Option JVal) :
    (errBranch s v).nextRequestId = s.nextRequestId := by
  unfold errBranch
  cases envelopeId v with
  | none => rfl
  | some rid => exact settleIfPending_core s rid _

theorem channelBranch_core (s : RPCState) (m : JVal) :
    (channelBranch s m).pending = s.pending ∧
    (channelBranch s m).settled = s.settled ∧
    (channelBranch s m).nextRequestId = s.nextRequestId := by
  unfold channelBranch
  split
  · split <;> exact ⟨rfl, rfl, rfl⟩
  · exact ⟨rfl, rfl, rfl⟩

/-! handleMessage-level lemmas. -/

theorem handleMessage_stateOK (s : RPCState) (m : Option JVal) (hok : stateOK s) :
    stateOK (handleMessage s m) := by
  cases m with
  | none => exact hok
  | some msg =>
      unfold handleMessage
      have h1 := resBranch_stateOK s (jget msg "res") hok
      have h2 := errBranch_stateOK _ (jget msg "err") h1
      obtain ⟨cp, cs, cn⟩ := channelBranch_core
        (errBranch (resBranch s (jget msg "res")) (jget msg "err")) msg
      exact stateOK_congr cp cn cs h2

theorem handleMessage_nextId (s : RPCState) (m : Option JVal) :
    (handleMessage s m).nextRequestId = s.nextRequestId := by
  cases m with
  | none => rfl
  | some msg =>
      unfold handleMessage
      obtain ⟨cp, cs, cn⟩ := channelBranch_core
        (errBranch (resBranch s (jget msg "res")) (jget msg "err")) msg
      rw [cn, errBranch_nextId, resBranch_nextId]

theorem handleMessage_frame (s : RPCState) (m : Option JVal) (r : Int)
    (h : ¬ eventRefs r (.recv m)) :
    (r ∈ (handleMessage s m).pending ↔ r ∈ s.pending) ∧
    settleCount (handleMessage s m) r = settleCount s r := by
  cases m with
  | none => exact ⟨Iff.rfl, rfl⟩
  | some msg =>
      have hres : envelopeId (jget msg "res") ≠ some r := fun hx => h (Or.inl hx)
      have herr : envelopeId (jget msg "err") ≠ some r := fun hx => h (Or.inr hx)
      unfold handleMessage
      have f1 := resBranch_frame s (jget msg "res") r hres
      have f2 := errBranch_frame (resBranch s (jget msg "res")) (jget msg "err") r herr
      obtain ⟨cp, cs, cn⟩ := channelBranch_core
        (errBranch (resBranch s (jget msg "res")) (jget msg "err")) msg
      constructor
      · rw [cp]
        exact f2.1.trans f1.1
      · rw [settleCount_congr r cs, f2.2, f1.2]

theorem handleMessage_settle (s : RPCState) (m : Option JVal) (r : Int)
    (hok : stateOK s) (hld : liveOrDone s r) (h : eventRefs r (.recv m)) :
    settleCount (handleMessage s m) r = 1 ∧ r ∉ (handleMessage s m).pending := by
  cases m with
  | none => exact False.elim h
  | some msg =>
      have h2 : envelopeId (jget msg "res") = some r ∨
          envelopeId (jget msg "err") = some r := h
      unfold handleMessage
      have hok1 := resBranch_stateOK s (jget msg "res") hok
      obtain ⟨cp, cs, cn⟩ := channelBranch_core
        (errBranch (resBranch s (jget msg "res")) (jget msg "err")) msg
      have key : settleCount (errBranch (resBranch s (jget msg "res")) (jget msg "err")) r = 1 ∧
          r ∉ (errBranch (resBranch s (jget msg "res")) (jget msg "err")).pending := by
        rcases h2 with hres | herr
        · have hd := resBranch_settle s (jget msg "res") r hok hld hres
          exact errBranch_done _ (jget msg "err") r hok1 ⟨hd.2, hd.1⟩
        · by_cases hres : envelopeId (jget msg "res") = some r
          · have hd := resBranch_settle s (jget msg "res") r hok hld hres
            exact errBranch_done _ (jget msg "err") r hok1 ⟨hd.2, hd.1⟩
          · have f1 := resBranch_frame s (jget msg "res") r hres
            have hld1 : liveOrDone (resBranch s (jget msg "res")) r :=
              liveOrDone_congr f1.1 f1.2 hld
            exact errBranch_settle _ (jget msg "err") r hok1 hld1 herr
      constructor
      · rw [settleCount_congr r cs]
        exact key.1
      · rw [cp]
        exact key.2

/-! fireTimeout-level lemmas (it is `settleIfPending` directly). -/

theorem fireTimeout_stateOK (s : RPCState) (rid : Int) (hok : stateOK s) :
    stateOK (fireTimeout s rid) :=
  settleIfPending_stateOK s rid _ hok

theorem fireTimeout_frame (s : RPCState) (rid r : Int) (h : r ≠ rid) :
    (r ∈ (fireTimeout s rid).pending ↔ r ∈ s.pending) ∧
    settleCount (fireTimeout s rid) r = settleCount s r :=
  settleIfPending_frame s rid _ r h

theorem fireTimeout_settle (s : RPCState) (r : Int) (hok : stateOK s)
    (hld : liveOrDone s r) :
    settleCount (fireTimeout s r) r = 1 ∧ r ∉ (fireTimeout s r).pending :=
  settleIfPending_done s r _ hok hld

theorem fireTimeout_nextId (s : RPCState) (rid : Int) :
    (fireTimeout s rid).nextRequestId = s.nextRequestId :=
  settleIfPending_core s rid _

/-! Lemmas about `sendRequest` and the lifecycle handlers that do not touch
the pending-request bookkeeping. -/

theorem statusFix_core (s : RPCState) :
    (statusFix s).pending = s.pending ∧
    (statusFix s).settled = s.settled ∧
    (statusFix s).nextRequestId = s.nextRequestId ∧
    (statusFix s).sentIds = s.sentIds ∧
    (statusFix s).allocatedIds = s.allocatedIds := by
  unfold statusFix setStatus
  split
  · split
    · exact ⟨rfl, rfl, rfl, rfl, rfl⟩
    · exact ⟨rfl, rfl, rfl, rfl, rfl⟩
  · exact ⟨rfl, rfl, rfl, rfl, rfl⟩

theorem stateOKcore_register (p : List Int) (n : Int) (sd : List (Int × SettleResult))
    (h : stateOKcore p n sd) : stateOKcore (p ++ [n]) (n + 1) sd := by
  obtain ⟨h1, h2, h3, h4, h5⟩ := h
  refine ⟨?_, ?_, ?_, h4, ?_⟩
  · rw [List.nodup_append]
    refine ⟨h1, List.nodup_singleton _, ?_⟩
    intro a ha hb
    rw [List.mem_singleton] at hb
    rw [hb] at ha
    exact absurd (h2 n ha) (lt_irrefl n)
  · intro r hr
    rcases List.mem_append.mp hr with hl | hl
    · exact lt_trans (h2 r hl) (lt_add_one n)
    · rw [List.mem_singleton] at hl
      rw [hl]
      exact lt_add_one n
  · intro r hr
    rcases List.mem_append.mp hr with hl | hl
    · exact h3 r hl
    · rw [List.mem_singleton] at hl
      rw [hl]
      intro habs
      exact absurd (h5 n habs) (lt_irrefl n)
  · intro r hr
    exact lt_trans (h5 r hr) (lt_add_one n)

theorem stateOKcore_allocReject (p : List Int) (n : Int)
    (sd : List (Int × SettleResult)) (x : SettleResult)
    (h : stateOKcore p n sd) : stateOKcore p (n + 1) (sd ++ [(n, x)]) := by
  obtain ⟨h1, h2, h3, h4, h5⟩ := h
  refine ⟨h1, ?_, ?_, ?_, ?_⟩
  · intro r hr
    exact lt_trans (h2 r hr) (lt_add_one n)
  · intro r hr
    simp only [List.map_append, List.map_singleton, List.mem_append,
      List.mem_singleton]
    rintro (hold | hnew)
    · exact h3 r hr hold
    · rw [hnew] at hr
      exact absurd (h2 n hr) (lt_irrefl n)
  · simp only [List.map_append, List.map_singleton]
    rw [List.nodup_append]
    refine ⟨h4, List.nodup_singleton _, ?_⟩
    intro a ha hb
    rw [List.mem_singleton] at hb
    rw [hb] at ha
    exact absurd (h5 n ha) (lt_irrefl n)
  · intro r hr
    simp only [List.map_append, List.map_singleton, List.mem_append,
      List.mem_singleton] at hr
    rcases hr with hold | hnew
    · exact lt_trans (h5 r hold) (lt_add_one n)
    · rw [hnew]
      exact lt_add_one n

theorem sendRequest_stateOK (s : RPCState) (o : SendOutcome) (hok : stateOK s) :
    stateOK (sendRequest s o).1 := by
  unfold sendRequest
  by_cases hp : ¬ (s.wsPresent = true)
  · rw [if_pos hp]
    exact hok
  · rw [if_neg hp]
    by_cases hw : ¬ (s.wsOpen = true)
    · rw [if_pos hw]
      exact hok
    · rw [if_neg hw]
      obtain ⟨c1, c2, c3, c4, c5⟩ := statusFix_core s
      have hok1 : stateOK (statusFix s) := stateOK_congr c1 c3 c2 hok
      cases o
      · show stateOK { statusFix s with
          nextRequestId := (statusFix s).nextRequestId + 1,
          allocatedIds := (statusFix s).allocatedIds ++ [(statusFix s).nextRequestId],
          pending := (statusFix s).pending ++ [(statusFix s).nextRequestId],
          sentIds := (statusFix s).sentIds ++ [(statusFix s).nextRequestId] }
        exact stateOKcore_register _ _ _ hok1
      · show stateOK { statusFix s with
          nextRequestId := (statusFix s).nextRequestId + 1,
          allocatedIds := (statusFix s).allocatedIds ++ [(statusFix s).nextRequestId],
          settled := (statusFix s).settled ++
            [((statusFix s).nextRequestId, .rejected "signing failed")] }
        exact stateOKcore_allocReject _ _ _ _ hok1
      · show stateOK { statusFix s with
          nextRequestId := (statusFix s).nextRequestId + 1,
          allocatedIds := (statusFix s).allocatedIds ++ [(statusFix s).nextRequestId],
          settled := (statusFix s).settled ++
            [((statusFix s).nextRequestId, .rejected "send failed")] }
        exact stateOKcore_allocReject _ _ _ _ hok1

theorem sendRequest_frame (s : RPCState) (o : SendOutcome) (r : Int)
    (hlt : r < s.nextRequestId) :
    s.nextRequestId ≤ (sendRequest s o).1.nextRequestId ∧
    (r ∈ (sendRequest s o).1.pending ↔ r ∈ s.pending) ∧
    settleCount (sendRequest s o).1 r = settleCount s r := by
  unfold sendRequest
  by_cases hp : ¬ (s.wsPresent = true)
  · rw [if_pos hp]
    exact ⟨le_refl _, Iff.rfl, rfl⟩
  · rw [if_neg hp]
    by_cases hw : ¬ (s.wsOpen = true)
    · rw [if_pos hw]
      exact ⟨le_refl _, Iff.rfl, rfl⟩
    · rw [if_neg hw]
      obtain ⟨c1, c2, c3, c4, c5⟩ := statusFix_core s
      have hne : r ≠ (statusFix s).nextRequestId := by
        rw [c3]
        exact ne_of_lt hlt
      cases o
      · refine ⟨?_, ?_, ?_⟩
        · show s.nextRequestId ≤ (statusFix s).nextRequestId + 1
          rw [c3]
          exact le_of_lt (lt_add_one _)
        · show r ∈ (statusFix s).pending ++ [(statusFix s).nextRequestId] ↔ r ∈ s.pending
          rw [c1]
          simp only [List.mem_append, List.mem_singleton]
          constructor
          · rintro (hl | hl)
            · exact hl
            · exact absurd hl hne
          · exact Or.inl
        · show ((({ statusFix s with
              nextRequestId := (statusFix s).nextRequestId + 1,
              allocatedIds := (statusFix s).allocatedIds ++ [(statusFix s).nextRequestId],
              pending := (statusFix s).pending ++ [(statusFix s).nextRequestId],
              sentIds := (statusFix s).sentIds ++ [(statusFix s).nextRequestId] } :
                RPCState).settled.map Prod.fst).count r) = settleCount s r
          show (((statusFix s).settled.map Prod.fst).count r) = settleCount s r
          rw [c2]
          rfl
      · refine ⟨?_, ?_, ?_⟩
        · show s.nextRequestId ≤ (statusFix s).nextRequestId + 1
          rw [c3]
          exact le_of_lt (lt_add_one _)
        · show r ∈ (statusFix s).pending ↔ r ∈ s.pending
          rw [c1]
        · show (((statusFix s).settled ++
              [((statusFix s).nextRequestId, SettleResult.rejected "signing failed")]).map
                Prod.fst).count r = settleCount s r
          simp only [List.map_append, List.map_singleton, List.count_append]
          rw [c2, List.count_singleton', if_neg (Ne.symm hne)]
          rfl
      · refine ⟨?_, ?_, ?_⟩
        · show s.nextRequestId ≤ (statusFix s).nextRequestId + 1
          rw [c3]
          exact le_of_lt (lt_add_one _)
        · show r ∈ (statusFix s).pending ↔ r ∈ s.pending
          rw [c1]
        · show (((statusFix s).settled ++
              [((statusFix s).nextRequestId, SettleResult.rejected "send failed")]).map
                Prod.fst).count r = settleCount s r
          simp only [List.map_append, List.map_singleton, List.count_append]
          rw [c2, List.count_singleton', if_neg (Ne.symm hne)]
          rfl

theorem close_core (s : RPCState) :
    (close s).pending = s.pending ∧ (close s).settled = s.settled ∧
    (close s).nextRequestId = s.nextRequestId :=
  ⟨rfl, rfl, rfl⟩

theorem handleReconnect_core (s : RPCState) :
    (handleReconnect s).pending = s.pending ∧
    (handleReconnect s).settled = s.settled ∧
    (handleReconnect s).nextRequestId = s.nextRequestId := by
  unfold handleReconnect setStatus
  split
  · exact ⟨rfl, rfl, rfl⟩
  · exact ⟨rfl, rfl, rfl⟩

theorem onWsClose_core (s : RPCState) :
    (onWsClose s).pending = s.pending ∧
    (onWsClose s).settled = s.settled ∧
    (onWsClose s).nextRequestId = s.nextRequestId := by
  unfold onWsClose
  obtain ⟨a, b, c⟩ := handleReconnect_core
    { setStatus s .disconnected with pingIntervalSet := false, wsOpen := false }
  exact ⟨a, b, c⟩

theorem connect_core (s : RPCState) :
    (connect s).pending = s.pending ∧
    (connect s).settled = s.settled ∧
    (connect s).nextRequestId = s.nextRequestId := by
  unfold connect setStatus
  split
  · exact ⟨rfl, rfl, rfl⟩
  · exact ⟨rfl, rfl, rfl⟩

/-! Step- and trace-level invariant lemmas. -/

theorem step_stateOK (s : RPCState) (e : Event) (hok : stateOK s) :
    stateOK (step s e) := by
  cases e with
  | sendReq o => exact sendRequest_stateOK s o hok
  | recv m => exact handleMessage_stateOK s m hok
  | reqTimeout rid => exact fireTimeout_stateOK s rid hok
  | explicitClose => exact hok
  | wsClosed =>
      obtain ⟨a, b, c⟩ := onWsClose_core s
      exact stateOK_congr a c b hok
  | reconnectTimer =>
      obtain ⟨a, b, c⟩ := connect_core { s with reconnectTimeoutSet := none }
      exact stateOK_congr a c b hok
  | wsOpen => exact hok
  | authResult ok => cases ok <;> exact hok

theorem step_nextId_mono (s : RPCState) (e : Event) :
    s.nextRequestId ≤ (step s e).nextRequestId := by
  cases e with
  | sendReq o => exact (sendRequest_frame s o (s.nextRequestId - 1) (sub_one_lt _)).1
  | recv m => exact le_of_eq (handleMessage_nextId s m).symm
  | reqTimeout rid => exact le_of_eq (fireTimeout_nextId s rid).symm
  | explicitClose => exact le_refl _
  | wsClosed => exact le_of_eq (onWsClose_core s).2.2.symm
  | reconnectTimer =>
      exact le_of_eq ((connect_core { s with reconnectTimeoutSet := none }).2.2).symm
  | wsOpen => exact le_refl _
  | authResult ok => cases ok <;> exact le_refl _

theorem step_frame (s : RPCState) (e : Event) (r : Int)
    (hlt : r < s.nextRequestId) (h : ¬ eventRefs r e) :
    (r ∈ (step s e).pending ↔ r ∈ s.pending) ∧
    settleCount (step s e) r = settleCount s r := by
  cases e with
  | sendReq o => exact (sendRequest_frame s o r hlt).2
  | recv m => exact handleMessage_frame s m r h
  | reqTimeout rid => exact fireTimeout_frame s rid r (fun hr => h hr.symm)
  | explicitClose => exact ⟨Iff.rfl, rfl⟩
  | wsClosed =>
      obtain ⟨a, b, c⟩ := onWsClose_core s
      refine ⟨?_, settleCount_congr r b⟩
      show r ∈ (onWsClose s).pending ↔ r ∈ s.pending
      rw [a]
  | reconnectTimer =>
      obtain ⟨a, b, c⟩ := connect_core { s with reconnectTimeoutSet := none }
      refine ⟨?_, settleCount_congr r (b.trans rfl)⟩
      show r ∈ (connect { s with reconnectTimeoutSet := none }).pending ↔ r ∈ s.pending
      rw [a]
  | wsOpen => exact ⟨Iff.rfl, rfl⟩
  | authResult ok => cases ok <;> exact ⟨Iff.rfl, rfl⟩

theorem step_settle (s : RPCState) (e : Event) (r : Int)
    (hok : stateOK s) (hld : liveOrDone s r) (h : eventRefs r e) :
    settleCount (step s e) r = 1 ∧ r ∉ (step s e).pending := by
  cases e with
  | sendReq o => exact False.elim h
  | recv m => exact handleMessage_settle s m r hok hld h
  | reqTimeout rid =>
      have hr : rid = r := h
      rw [hr]
      exact fireTimeout_settle s r hok hld
  | explicitClose => exact False.elim h
  | wsClosed => exact False.elim h
  | reconnectTimer => exact False.elim h
  | wsOpen => exact False.elim h
  | authResult ok => exact False.elim h

theorem step_done (s : RPCState) (e : Event) (r : Int)
    (hok : stateOK s) (hlt : r < s.nextRequestId)
    (hd : r ∉ s.pending ∧ settleCount s r = 1) :
    settleCount (step s e) r = 1 ∧ r ∉ (step s e).pending := by
  by_cases h : eventRefs r e
  · exact step_settle s e r hok (Or.inr hd) h
  · have hf := step_frame s e r hlt h
    exact ⟨by rw [hf.2]; exact hd.2, fun hx => hd.1 (hf.1.mp hx)⟩

theorem step_liveOrDone (s : RPCState) (e : Event) (r : Int)
    (hok : stateOK s) (hlt : r < s.nextRequestId) (hld : liveOrDone s r) :
    liveOrDone (step s e) r := by
  by_cases h : eventRefs r e
  · have hs := step_settle s e r hok hld h
    exact Or.inr ⟨hs.2, hs.1⟩
  · have hf := step_frame s e r hlt h
    exact liveOrDone_congr hf.1 hf.2 hld

theorem run_append_one (s : RPCState) (tr : List Event) (e : Event) :
    run s (tr ++ [e]) = step (run s tr) e := by
  unfold run
  rw [List.foldl_append]
  rfl

theorem run_stateOK (tr : List Event) :
    ∀ s : RPCState, stateOK s → stateOK (run s tr) := by
  induction tr with
  | nil => exact fun s hok => hok
  | cons e tr ih => exact fun s hok => ih (step s e) (step_stateOK s e hok)

theorem run_nextId_mono (tr : List Event) :
    ∀ s : RPCState, s.nextRequestId ≤ (run s tr).nextRequestId := by
  induction tr with
  | nil => exact fun s => le_refl _
  | cons e tr ih =>
      exact fun s => le_trans (step_nextId_mono s e) (ih (step s e))

theorem run_liveOrDone (tr : List Event) :
    ∀ (s : RPCState) (r : Int), stateOK s → r < s.nextRequestId →
      liveOrDone s r → liveOrDone (run s tr) r := by
  induction tr with
  | nil => exact fun s r _ _ hld => hld
  | cons e tr ih =>
      intro s r hok hlt hld
      exact ih (step s e) r (step_stateOK s e hok)
        (lt_of_lt_of_le hlt (step_nextId_mono s e))
        (step_liveOrDone s e r hok hlt hld)

theorem run_done (tr : List Event) :
    ∀ (s : RPCState) (r : Int), stateOK s → r < s.nextRequestId →
      (r ∉ s.pending ∧ settleCount s r = 1) →
      settleCount (run s tr) r = 1 ∧ r ∉ (run s tr).pending := by
  induction tr with
  | nil => exact fun s r _ _ hd => ⟨hd.2, hd.1⟩
  | cons e tr ih =>
      intro s r hok hlt hd
      have hstep := step_done s e r hok hlt hd
      exact ih (step s e) r (step_stateOK s e hok)
        (lt_of_lt_of_le hlt (step_nextId_mono s e)) ⟨hstep.2, hstep.1⟩

theorem run_settles (tr : List Event) :
    ∀ (s : RPCState) (r : Int), stateOK s → r < s.nextRequestId →
      liveOrDone s r → Event.reqTimeout r ∈ tr →
      settleCount (run s tr) r = 1 ∧ r ∉ (run s tr).pending := by
  induction tr with
  | nil =>
      intro s r _ _ _ ht
      exact absurd ht (List.not_mem_nil _)
  | cons e tr ih =>
      intro s r hok hlt hld ht
      rcases List.mem_cons.mp ht with he | ht2
      · have hset : settleCount (step s e) r = 1 ∧ r ∉ (step s e).pending := by
          rw [← he]
          exact step_settle s (Event.reqTimeout r) r hok hld rfl
        exact run_done tr (step s e) r (step_stateOK s e hok)
          (lt_of_lt_of_le hlt (step_nextId_mono s e)) ⟨hset.2, hset.1⟩
      · exact ih (step s e) r (step_stateOK s e hok)
          (lt_of_lt_of_le hlt (step_nextId_mono s e))
          (step_liveOrDone s e r hok hlt hld) ht2

/-! Lemmas for the id-allocation discipline of `sendRequest`. -/

theorem statusFix_ws (s : RPCState) :
    (statusFix s).wsPresent = s.wsPresent ∧ (statusFix s).wsOpen = s.wsOpen := by
  unfold statusFix setStatus
  split
  · split
    · exact ⟨rfl, rfl⟩
    · exact ⟨rfl, rfl⟩
  · exact ⟨rfl, rfl⟩

theorem sendRequest_allocates (s : RPCState) (o : SendOutcome)
    (hp : s.wsPresent = true) (hw : s.wsOpen = true) :
    (sendRequest s o).1.nextRequestId = s.nextRequestId + 1 ∧
    (sendRequest s o).1.allocatedIds = s.allocatedIds ++ [s.nextRequestId] ∧
    (sendRequest s o).1.sentIds =
      s.sentIds ++ (if o = SendOutcome.ok then [s.nextRequestId] else []) ∧
    (sendRequest s o).1.wsPresent = true ∧
    (sendRequest s o).1.wsOpen = true := by
  unfold sendRequest
  rw [if_neg (not_not_intro hp), if_neg (not_not_intro hw)]
  obtain ⟨c1, c2, c3, c4, c5⟩ := statusFix_core s
  obtain ⟨w1, w2⟩ := statusFix_ws s
  cases o with
  | ok =>
      refine ⟨?_, ?_, ?_, ?_, ?_⟩
      · show (statusFix s).nextRequestId + 1 = s.nextRequestId + 1
        rw [c3]
      · show (statusFix s).allocatedIds ++ [(statusFix s).nextRequestId] =
          s.allocatedIds ++ [s.nextRequestId]
        rw [c5, c3]
      · show (statusFix s).sentIds ++ [(statusFix s).nextRequestId] =
          s.sentIds ++ (if SendOutcome.ok = SendOutcome.ok then [s.nextRequestId] else [])
        rw [c4, c3, if_pos rfl]
      · show (statusFix s).wsPresent = true
        rw [w1, hp]
      · show (statusFix s).wsOpen = true
        rw [w2, hw]
  | signThrow =>
      refine ⟨?_, ?_, ?_, ?_, ?_⟩
      · show (statusFix s).nextRequestId + 1 = s.nextRequestId + 1
        rw [c3]
      · show (statusFix s).allocatedIds ++ [(statusFix s).nextRequestId] =
          s.allocatedIds ++ [s.nextRequestId]
        rw [c5, c3]
      · show (statusFix s).sentIds =
          s.sentIds ++ (if SendOutcome.signThrow = SendOutcome.ok then [s.nextRequestId] else [])
        rw [c4, if_neg (by decide), List.append_nil]
      · show (statusFix s).wsPresent = true
        rw [w1, hp]
      · show (statusFix s).wsOpen = true
        rw [w2, hw]
  | sendThrow =>
      refine ⟨?_, ?_, ?_, ?_, ?_⟩
      · show (statusFix s).nextRequestId + 1 = s.nextRequestId + 1
        rw [c3]
      · show (statusFix s).allocatedIds ++ [(statusFix s).nextRequestId] =
          s.allocatedIds ++ [s.nextRequestId]
        rw [c5, c3]
      · show (statusFix s).sentIds =
          s.sentIds ++ (if SendOutcome.sendThrow = SendOutcome.ok then [s.nextRequestId] else [])
        rw [c4, if_neg (by decide), List.append_nil]
      · show (statusFix s).wsPresent = true
        rw [w1, hp]
      · show (statusFix s).wsOpen = true
        rw [w2, hw]

theorem runSends_spec (os : List SendOutcome) :
    ∀ s : RPCState, s.wsPresent = true → s.wsOpen = true →
      (runSends s os).nextRequestId = s.nextRequestId + os.length ∧
      (runSends s os).allocatedIds = s.allocatedIds ++ idsFrom s.nextRequestId os.length ∧
      (runSends s os).sentIds = s.sentIds ++ sentFrom s.nextRequestId os := by
  induction os with
  | nil =>
      intro s _ _
      refine ⟨by simp [runSends], ?_, ?_⟩
      · show s.allocatedIds = s.allocatedIds ++ idsFrom s.nextRequestId 0
        simp [idsFrom]
      · show s.sentIds = s.sentIds ++ sentFrom s.nextRequestId []
        simp [sentFrom]
  | cons o os ih =>
      intro s hp hw
      have ha := sendRequest_allocates s o hp hw
      have ihs := ih (sendRequest s o).1 ha.2.2.2.1 ha.2.2.2.2
      refine ⟨?_, ?_, ?_⟩
      · show (runSends (sendRequest s o).1 os).nextRequestId =
          s.nextRequestId + (o :: os).length
        rw [ihs.1, ha.1, List.length_cons]
        push_cast
        ring
      · show (runSends (sendRequest s o).1 os).allocatedIds =
          s.allocatedIds ++ idsFrom s.nextRequestId (o :: os).length
        rw [ihs.2.1, ha.2.1, ha.1, List.length_cons]
        show (s.allocatedIds ++ [s.nextRequestId]) ++ idsFrom (s.nextRequestId + 1) os.length =
          s.allocatedIds ++ (s.nextRequestId :: idsFrom (s.nextRequestId + 1) os.length)
        rw [List.append_assoc, List.singleton_append]
      · show (runSends (sendRequest s o).1 os).sentIds =
          s.sentIds ++ sentFrom s.nextRequestId (o :: os)
        rw [ihs.2.2, ha.2.2.1, ha.1]
        show (s.sentIds ++ (if o = SendOutcome.ok then [s.nextRequestId] else [])) ++
            sentFrom (s.nextRequestId + 1) os =
          s.sentIds ++ ((if o = SendOutcome.ok then [s.nextRequestId] else []) ++
            sentFrom (s.nextRequestId + 1) os)
        rw [List.append_assoc]

theorem mem_idsFrom (k : Nat) :
    ∀ (n m : Int), m ∈ idsFrom n k ↔ ∃ i : Nat, i < k ∧ m = n + i := by
  induction k with
  | zero =>
      intro n m
      simp [idsFrom]
  | succ k ih =>
      intro n m
      unfold idsFrom
      rw [List.mem_cons, ih (n + 1) m]
      constructor
      · rintro (h | ⟨i, hik, him⟩)
        · exact ⟨0, Nat.succ_pos k, by simpa using h⟩
        · refine ⟨i + 1, Nat.succ_lt_succ hik, ?_⟩
          rw [him]
          push_cast
          ring
      · rintro ⟨i, hik, him⟩
        cases i with
        | zero => exact Or.inl (by simpa using him)
        | succ i =>
            refine Or.inr ⟨i, Nat.lt_of_succ_lt_succ hik, ?_⟩
            rw [him]
            push_cast
            ring

theorem mem_sentFrom (os : List SendOutcome) :
    ∀ (n m : Int), m ∈ sentFrom n os ↔
      ∃ i : Nat, i < os.length ∧ os.getD i SendOutcome.ok = SendOutcome.ok ∧ m = n + i := by
  induction os with
  | nil =>
      intro n m
      simp [sentFrom]
  | cons o os ih =>
      intro n m
      unfold sentFrom
      rw [List.mem_append, ih (n + 1) m]
      constructor
      · rintro (h | ⟨i, hik, hoi, him⟩)
        · by_cases ho : o = SendOutcome.ok
          · rw [if_pos ho, List.mem_singleton] at h
            exact ⟨0, Nat.succ_pos _, by simpa using ho, by simpa using h⟩
          · rw [if_neg ho] at h
            exact absurd h (List.not_mem_nil m)
        · refine ⟨i + 1, Nat.succ_lt_succ hik, by simpa using hoi, ?_⟩
          rw [him]
          push_cast
          ring
      · rintro ⟨i, hik, hoi, him⟩
        cases i with
        | zero =>
            left
            have ho : o = SendOutcome.ok := by simpa using hoi
            rw [if_pos ho, List.mem_singleton]
            simpa using him
        | succ i =>
            right
            refine ⟨i, Nat.lt_of_succ_lt_succ hik, by simpa using hoi, ?_⟩
            rw [him]
            push_cast
            ring

theorem idsFrom_pairwise (k : Nat) :
    ∀ n : Int, List.Pairwise (· < ·) (idsFrom n k) := by
  induction k with
  | zero =>
      intro n
      simp [idsFrom]
  | succ k ih =>
      intro n
      unfold idsFrom
      refine List.Pairwise.cons ?_ (ih (n + 1))
      intro m hm
      obtain ⟨i, _, him⟩ := (mem_idsFrom k (n + 1) m).mp hm
      rw [him]
      have : (0 : Int) ≤ (i : Int) := Int.ofNat_nonneg i
      omega

/-! ### Claim theorems -/

/-- C1 (failing-input evaluation): the code contradicts the claim.  After an
explicit `close()` from a connected session, `close()` itself does cancel
both timers and set `disconnected`; but the close event of the socket that
`close()` shut down still runs the `ws.on("close")` handler, which calls
`handleReconnect` — the session moves to `reconnecting`, the attempt
counter becomes 1 and a reconnect is scheduled at 1000 ms, so a further
reconnection attempt IS scheduled after an explicit `close()`. -/
theorem close_then_transport_close_schedules_reconnect :
    (close connState).status = WSStatus.disconnected ∧
    (close connState).reconnectTimeoutSet = none ∧
    (close connState).pingIntervalSet = false ∧
    (step (close connState) Event.wsClosed).status = WSStatus.reconnecting ∧
    (step (close connState) Event.wsClosed).reconnectAttempts = 1 ∧
    (step (close connState) Event.wsClosed).reconnectTimeoutSet = some 1000 :=
  ⟨rfl, rfl, rfl, rfl, rfl, rfl⟩

/-- C2 counterexample: `close()` does not settle outstanding requests.
With request 7 pending, after `close()` the entry is still in the pending
table and nothing was settled — refuting "close() synchronously settles
each pending request with a connection-closed error". -/
theorem close_leaves_pending_requests_unsettled :
    (close pending7State).pending = [7] ∧
    (close pending7State).settled = [] :=
  ⟨rfl, rfl⟩

/-- C2 amended: `close()` cancels the keepalive and reconnect timers,
drops the socket and sets status `disconnected`, but leaves every pending
request in the table and settles none of them; such a request is settled
later only by its own 10 s timeout, with a "Request timeout" error. -/
theorem close_cancels_timers_but_keeps_pending (s : RPCState) (r : Int) :
    (close s).status = WSStatus.disconnected ∧
    (close s).pingIntervalSet = false ∧
    (close s).reconnectTimeoutSet = none ∧
    (close s).wsPresent = false ∧
    (close s).pending = s.pending ∧
    (close s).settled = s.settled ∧
    (fireTimeout (close s) r).settled = s.settled ++
      (if r ∈ s.pending then [(r, SettleResult.rejected "Request timeout")] else []) := by
  refine ⟨rfl, rfl, rfl, rfl, rfl, rfl, ?_⟩
  unfold fireTimeout settleIfPending settleOne
  by_cases h : r ∈ s.pending
  · have h2 : r ∈ (close s).pending := h
    rw [if_pos h2, if_pos h]
    rfl
  · have h2 : r ∉ (close s).pending := h
    rw [if_neg h2, if_neg h, List.append_nil]
    rfl

/-- C3: once a request is registered in the pending table of a
well-formed session, along any event trace it is settled at most once; it
is in the table exactly while unsettled (removal is atomic with
settlement); its settlement count changes only at an event referencing its
id — a response envelope, an error envelope, or its timeout — and the
first such event settles it; and since its timeout always fires, a trace
containing the timeout settles it exactly once and removes it: never
twice, never zero times. -/
theorem pending_request_settled_exactly_once
    (s0 : RPCState) (r : Int) (tr : List Event)
    (hok : stateOK s0) (hmem : r ∈ s0.pending) (hcnt : settleCount s0 r = 0) :
    (∀ tr1 : List Event, settleCount (run s0 tr1) r ≤ 1) ∧
    (∀ tr1 : List Event, r ∈ (run s0 tr1).pending ↔ settleCount (run s0 tr1) r = 0) ∧
    (∀ (tr1 : List Event) (e : Event), ¬ eventRefs r e →
        settleCount (run s0 (tr1 ++ [e])) r = settleCount (run s0 tr1) r) ∧
    (∀ (tr1 : List Event) (e : Event), eventRefs r e →
        settleCount (run s0 (tr1 ++ [e])) r = 1) ∧
    (Event.reqTimeout r ∈ tr →
        settleCount (run s0 tr) r = 1 ∧ r ∉ (run s0 tr).pending) := by
  obtain ⟨hnd, hbound, hns, hsnd, hsb⟩ := hok
  have hok2 : stateOK s0 := ⟨hnd, hbound, hns, hsnd, hsb⟩
  have hlt : r < s0.nextRequestId := hbound r hmem
  have hld : liveOrDone s0 r := Or.inl ⟨hmem, hcnt⟩
  have key : ∀ tr1 : List Event, stateOK (run s0 tr1) ∧
      r < (run s0 tr1).nextRequestId ∧ liveOrDone (run s0 tr1) r :=
    fun tr1 => ⟨run_stateOK tr1 s0 hok2,
      lt_of_lt_of_le hlt (run_nextId_mono tr1 s0),
      run_liveOrDone tr1 s0 r hok2 hlt hld⟩
  refine ⟨?_, ?_, ?_, ?_, ?_⟩
  · intro tr1
    rcases (key tr1).2.2 with ⟨_, b⟩ | ⟨_, b⟩
    · rw [b]
      exact Nat.zero_le 1
    · rw [b]
  · intro tr1
    rcases (key tr1).2.2 with ⟨a, b⟩ | ⟨a, b⟩
    · exact ⟨fun _ => b, fun _ => a⟩
    · refine ⟨fun hx => absurd hx a, fun hx => ?_⟩
      rw [b] at hx
      exact absurd hx one_ne_zero
  · intro tr1 e h
    rw [run_append_one]
    exact (step_frame (run s0 tr1) e r (key tr1).2.1 h).2
  · intro tr1 e h
    rw [run_append_one]
    exact (step_settle (run s0 tr1) e r (key tr1).1 (key tr1).2.2 h).1
  · intro ht
    exact run_settles tr s0 r hok2 hlt hld ht

/-- C3 witness: the theorem applied to a connected session with request 1
pending and a trace consisting of that request's timeout. -/
theorem pending_request_settled_exactly_once_witness :
    settleCount (run onePendingState [Event.reqTimeout 1]) 1 = 1 ∧
    (1 : Int) ∉ (run onePendingState [Event.reqTimeout 1]).pending :=
  (pending_request_settled_exactly_once onePendingState 1 [Event.reqTimeout 1]
      (by refine ⟨?_, ?_, ?_, ?_, ?_⟩ <;> decide) (by decide) (by decide)).2.2.2.2
    (List.mem_singleton.mpr rfl)

/-- C4 counterexample: with an OPEN socket and status `authenticating`
(hence not `connected`), `NitroliteRPCClient.sendRequest` does not fail
with a not-connected error: it allocates id 5, transmits the frame, and
overwrites the status with `connected` — refuting "if the status is not
connected the call fails and no request is sent". -/
theorem sendRequest_transmits_while_not_connected :
    authState.status ≠ WSStatus.connected ∧
    (sendRequest authState SendOutcome.ok).2 = Except.ok 5 ∧
    (sendRequest authState SendOutcome.ok).1.sentIds = [5] ∧
    (sendRequest authState SendOutcome.ok).1.status = WSStatus.connected :=
  ⟨by decide, rfl, rfl, rfl⟩

/-- C4 amended: the not-connected guard exists only in the duplicate
`ServerWebSocketClient.sendRequest`, which fails with "WebSocket not
connected" and sends nothing whenever the socket is missing or the status
is not `connected`; `NitroliteRPCClient.sendRequest` fails (sending
nothing) only when the socket is missing or not OPEN, and with an OPEN
socket it allocates an id and transmits regardless of status. -/
theorem sendRequest_not_connected_guards (s : RPCState) (o : SendOutcome) :
    (s.status ≠ WSStatus.connected →
      serverSendRequest s o = (s, Except.error "WebSocket not connected")) ∧
    (¬ s.wsPresent →
      sendRequest s o = (s, Except.error "WebSocket instance not initialized")) ∧
    (s.wsPresent → ¬ s.wsOpen →
      sendRequest s o = (s, Except.error "WebSocket not in OPEN state")) ∧
    (s.wsPresent → s.wsOpen →
      (sendRequest s o).1.sentIds =
        s.sentIds ++ (if o = SendOutcome.ok then [s.nextRequestId] else []) ∧
      (sendRequest s o).1.nextRequestId = s.nextRequestId + 1) := by
  refine ⟨?_, ?_, ?_, ?_⟩
  · intro hst
    unfold serverSendRequest
    rw [if_pos (Or.inr hst)]
  · intro hp
    unfold sendRequest
    rw [if_pos hp]
  · intro hp hw
    unfold sendRequest
    rw [if_neg (not_not_intro hp), if_pos hw]
  · intro hp hw
    have ha := sendRequest_allocates s o hp hw
    exact ⟨ha.2.2.1, ha.1⟩

/-- C4 witness: the guards and the violation at concrete inputs: the
duplicate client rejects the call from `authState`, while the main client
transmits from the same state. -/
theorem sendRequest_not_connected_guards_witness :
    serverSendRequest authState SendOutcome.ok =
      (authState, Except.error "WebSocket not connected") ∧
    ((sendRequest authState SendOutcome.ok).1.sentIds =
        authState.sentIds ++
          (if SendOutcome.ok = SendOutcome.ok then [authState.nextRequestId] else []) ∧
      (sendRequest authState SendOutcome.ok).1.nextRequestId =
        authState.nextRequestId + 1) :=
  ⟨(sendRequest_not_connected_guards authState SendOutcome.ok).1 (by decide),
   (sendRequest_not_connected_guards authState SendOutcome.ok).2.2.2
      (by decide) (by decide)⟩

/-- C5 counterexample: the unparseable challenge input "hello"
(`JSON.parse` throws on it) does not fail the handshake: the raw string is
used as the challenge token of the signed EIP-712 verify message —
refuting "no unparseable value is ever used as the challenge token". -/
theorem unparseable_challenge_used_as_token :
    eip712Challenge (SignData.jstr "hello" none) = Except.ok "hello" ∧
    extractChallenge (SignData.jstr "hello" none) = "hello" :=
  ⟨rfl, rfl⟩

/-- C5 amended: extraction fails explicitly exactly when the extracted
token is empty or contains a bracket: parseable input matching no
recognized shape yields the empty token and an explicit error, and every
token that reaches signing is nonempty and bracket-free — but an
UNPARSEABLE string is itself used verbatim as the token whenever it is
nonempty and bracket-free. -/
theorem challenge_extraction_behaviour (d : SignData) (c : String) :
    (∀ raw : String, eip712Challenge (SignData.jstr raw none) =
        if raw = "" ∨ raw.data.contains '[' = true ∨ raw.data.contains '{' = true
        then Except.error "Could not extract valid challenge UUID for EIP-712 signing"
        else Except.ok raw) ∧
    (eip712Challenge d = Except.ok c →
        c ≠ "" ∧ c.data.contains '[' = false ∧ c.data.contains '{' = false) ∧
    eip712Challenge (SignData.jobj [("foo", JVal.num 1)]) =
      Except.error "Could not extract valid challenge UUID for EIP-712 signing" ∧
    eip712Challenge (SignData.jstr "x"
        (some (JVal.obj [("res", JVal.arr [JVal.num 1, JVal.str "auth_challenge",
          JVal.obj [("challenge", JVal.str "abc")], JVal.num 0])]))) =
      Except.ok "abc" := by
  refine ⟨?_, ?_, rfl, rfl⟩
  · intro raw
    unfold eip712Challenge extractChallenge challengeInvalid
    by_cases h1 : raw = ""
    · simp [h1]
    · by_cases h2 : raw.data.contains '[' = true
      · simp [h1, h2]
      · by_cases h3 : raw.data.contains '{' = true
        · simp [h1, h2, h3]
        · simp [h1, h2, h3]
  · intro h
    unfold eip712Challenge at h
    by_cases hinv : challengeInvalid (extractChallenge d) = true
    · rw [if_pos hinv] at h
      exact Except.noConfusion h
    · rw [if_neg hinv] at h
      have hc : extractChallenge d = c := by
        injection h
      unfold challengeInvalid at hinv
      rw [hc] at hinv
      simp only [Bool.or_eq_true, decide_eq_true_eq, not_or,
        Bool.not_eq_true] at hinv
      exact ⟨hinv.1.1, hinv.1.2, hinv.2⟩

/-- C5 witness: the behaviour theorem applied at the unparseable input
"hello": the token that reaches signing is nonempty and bracket-free. -/
theorem challenge_extraction_behaviour_witness :
    "hello" ≠ "" ∧
    "hello".data.contains '[' = false ∧
    "hello".data.contains '{' = false :=
  (challenge_extraction_behaviour (SignData.jstr "hello" none) "hello").2.1 rfl

/-- C6 counterexample: when both schemes fail (EIP-712 error "alpha",
fallback error "beta"), the combined error names both schemes but carries
only the EIP-712 failure's message: "alpha" occurs in it, "beta" does not —
refuting "a combined error that identifies both the structured-scheme
failure and the fallback-scheme failure". -/
theorem combined_error_omits_fallback_failure :
    (signChallengePhase "0xServer" "tok"
        (fun _ => Except.error "alpha") (fun _ => Except.error "beta")).result =
      Except.error "Both EIP-712 and fallback signing failed: alpha" ∧
    "alpha".toList <:+: ("Both EIP-712 and fallback signing failed: alpha").toList ∧
    ¬ ("beta".toList <:+: ("Both EIP-712 and fallback signing failed: alpha").toList) :=
  ⟨rfl, by decide, by decide⟩

/-- C6 amended: the EIP-712 scheme is always attempted first; the
message-hash fallback is attempted exactly when the EIP-712 signer throws;
a fallback success yields its signature; and when both throw the step
fails with an error naming both schemes but carrying only the EIP-712
error's message. -/
theorem signing_fallback_order (address ch sig e1 e2 : String)
    (eipSign fbSign : String → Except String String) :
    (signChallengePhase address ch eipSign fbSign).attempts.head? =
      some SignScheme.eip712 ∧
    (SignScheme.messageHash ∈ (signChallengePhase address ch eipSign fbSign).attempts ↔
      ∃ msg, eipSign ch = Except.error msg) ∧
    signChallengePhase address ch (fun _ => Except.ok sig) fbSign =
      ⟨[SignScheme.eip712], Except.ok sig⟩ ∧
    signChallengePhase address ch (fun _ => Except.error e1) (fun _ => Except.ok sig) =
      ⟨[SignScheme.eip712, SignScheme.messageHash], Except.ok sig⟩ ∧
    signChallengePhase address ch (fun _ => Except.error e1) (fun _ => Except.error e2) =
      ⟨[SignScheme.eip712, SignScheme.messageHash],
        Except.error ("Both EIP-712 and fallback signing failed: " ++ e1)⟩ := by
  refine ⟨?_, ?_, rfl, rfl, rfl⟩
  · unfold signChallengePhase
    cases eipSign ch with
    | ok s => rfl
    | error e =>
        cases fbSign ("Authentication challenge for " ++ address ++ ": " ++ ch) with
        | ok s => rfl
        | error e2 => rfl
  · unfold signChallengePhase
    cases h : eipSign ch with
    | ok s => simp [h]
    | error e =>
        cases fbSign ("Authentication challenge for " ++ address ++ ": " ++ ch) with
        | ok s2 => simp [h]
        | error e2 => simp [h]

/-- C7 counterexample: at the sixth unexpected close (counter already at
the maximum 5) `handleReconnect` transitions to `reconnect_failed` WITHOUT
incrementing the counter — it stays 5 instead of becoming 6 — refuting
"for every unexpected transport close the reconnect-attempt counter is
incremented". -/
theorem sixth_close_does_not_increment_counter :
    (run connState failCycles).reconnectAttempts = 5 ∧
    (step (run connState failCycles) Event.wsClosed).reconnectAttempts = 5 ∧
    (step (run connState failCycles) Event.wsClosed).reconnectAttempts ≠
      (run connState failCycles).reconnectAttempts + 1 ∧
    (step (run connState failCycles) Event.wsClosed).status =
      WSStatus.reconnectFailed :=
  ⟨rfl, rfl, by decide, rfl⟩

/-- C7 amended: on an unexpected close the counter is incremented only
while it is still below the maximum; once it has reached the maximum the
status becomes `reconnect_failed` with no increment and nothing newly
scheduled; otherwise status becomes `reconnecting` and the retry is
scheduled after `reconnectDelay * attempts` — so from a fresh connected
session the five attempts are scheduled at 1000..5000 ms and the sixth
unexpected close is terminal with no further attempt scheduled. -/
theorem reconnect_backoff_behaviour (s : RPCState) :
    ((handleReconnect s).reconnectAttempts =
      if s.maxReconnectAttempts ≤ s.reconnectAttempts then s.reconnectAttempts
      else s.reconnectAttempts + 1) ∧
    ((handleReconnect s).status =
      if s.maxReconnectAttempts ≤ s.reconnectAttempts then WSStatus.reconnectFailed
      else WSStatus.reconnecting) ∧
    ((handleReconnect s).reconnectTimeoutSet =
      if s.maxReconnectAttempts ≤ s.reconnectAttempts then s.reconnectTimeoutSet
      else some (s.reconnectDelay * (s.reconnectAttempts + 1))) ∧
    ((handleReconnect s).scheduledDelays =
      if s.maxReconnectAttempts ≤ s.reconnectAttempts then s.scheduledDelays
      else s.scheduledDelays ++ [s.reconnectDelay * (s.reconnectAttempts + 1)]) ∧
    (run connState failCycles).scheduledDelays = [1000, 2000, 3000, 4000, 5000] ∧
    (run connState (failCycles ++ [Event.wsClosed])).status =
      WSStatus.reconnectFailed ∧
    (run connState (failCycles ++ [Event.wsClosed])).scheduledDelays =
      [1000, 2000, 3000, 4000, 5000] ∧
    (run connState (failCycles ++ [Event.wsClosed])).reconnectTimeoutSet = none := by
  refine ⟨?_, ?_, ?_, ?_, rfl, rfl, rfl, rfl⟩ <;>
    by_cases h : s.maxReconnectAttempts ≤ s.reconnectAttempts <;>
      simp [handleReconnect, setStatus, h]

/-- C8 counterexample: request 1 is pending when the transport dies; after
the automatic reconnection completes (retry fired, new socket opened,
handshake succeeded) the pending table still contains 1, and a response
frame arriving on the NEW connection settles the request issued on the old
one — refuting "pending requests are discarded at reconnection and never
answered by traffic on the new connection". -/
theorem old_pending_request_answered_after_reconnect :
    (run onePendingState reconnectTrace).pending = [1] ∧
    (run onePendingState reconnectTrace).status = WSStatus.connected ∧
    (handleMessage (run onePendingState reconnectTrace) resEnvelope1).settled =
      [(1, SettleResult.resolved (JVal.arr []))] ∧
    (handleMessage (run onePendingState reconnectTrace) resEnvelope1).pending = [] :=
  ⟨rfl, rfl, rfl, rfl⟩

/-- C8 amended: nothing in the reconnect path clears the pending table or
the settlement log: the unexpected-close handler, `connect()`, and the
whole close–retry–open–reauthenticate sequence all preserve
`pendingRequests`, so requests pending at the close are still pending (and
still matchable by id) on the new connection. -/
theorem reconnect_preserves_pending (s : RPCState) :
    (onWsClose s).pending = s.pending ∧
    (connect s).pending = s.pending ∧
    (run s reconnectTrace).pending = s.pending ∧
    (run s reconnectTrace).settled = s.settled := by
  have e1p := (onWsClose_core s).1
  have e1s := (onWsClose_core s).2.1
  have e2p := (connect_core { step s Event.wsClosed with reconnectTimeoutSet := none }).1
  have e2s := (connect_core { step s Event.wsClosed with reconnectTimeoutSet := none }).2.1
  refine ⟨e1p, (connect_core s).1, ?_, ?_⟩
  · show (step (step (step (step s Event.wsClosed) Event.reconnectTimer)
        Event.wsOpen) (Event.authResult true)).pending = s.pending
    have h3 : (step (step s Event.wsClosed) Event.reconnectTimer).pending =
        (step s Event.wsClosed).pending := e2p.trans rfl
    have h4 : (step s Event.wsClosed).pending = s.pending := e1p
    calc (step (step (step (step s Event.wsClosed) Event.reconnectTimer)
            Event.wsOpen) (Event.authResult true)).pending
        = (step (step s Event.wsClosed) Event.reconnectTimer).pending := rfl
      _ = (step s Event.wsClosed).pending := h3
      _ = s.pending := h4
  · show (step (step (step (step s Event.wsClosed) Event.reconnectTimer)
        Event.wsOpen) (Event.authResult true)).settled = s.settled
    have h3 : (step (step s Event.wsClosed) Event.reconnectTimer).settled =
        (step s Event.wsClosed).settled := e2s.trans rfl
    have h4 : (step s Event.wsClosed).settled = s.settled := e1s
    calc (step (step (step (step s Event.wsClosed) Event.reconnectTimer)
            Event.wsOpen) (Event.authResult true)).settled
        = (step (step s Event.wsClosed) Event.reconnectTimer).settled := rfl
      _ = (step s Event.wsClosed).settled := h3
      _ = s.settled := h4

/-- C9: with request id 2 pending, the inbound error envelope
`{err:[2,42,"bad params",0]}` settles exactly that request, rejecting its
caller with the constructed error "Error 42: bad params" (code 42 and
message "bad params"), removes it from the pending table atomically, and
leaves the session status and the status log untouched. -/
theorem error_envelope_settles_request_with_code_and_message :
    (handleMessage pending2State errEnvelope2).settled =
      [(2, SettleResult.rejected "Error 42: bad params")] ∧
    (handleMessage pending2State errEnvelope2).pending = [] ∧
    (handleMessage pending2State errEnvelope2).status = pending2State.status ∧
    (handleMessage pending2State errEnvelope2).statusLog = pending2State.statusLog := by
  refine ⟨?_, rfl, rfl, rfl⟩
  simp only [handleMessage, resBranch, errBranch, channelBranch, jget,
    envelopeId, errMessage, settleIfPending, settleOne, jsToString,
    pending2State, initState, errEnvelope2]
  rfl

/-- C10: past its guards every `sendRequest` call consumes exactly one id:
`nextRequestId` increments by one whatever the signing/send outcome, the
ids handed out over consecutive calls are `n, n+1, …` — strictly
increasing, never reused — and only the calls whose signing and send
succeed put their id on the wire, so a call that throws still consumes its
id and leaves a gap in the sent ids. -/
theorem request_ids_strictly_increasing (s : RPCState) (os : List SendOutcome)
    (hp : s.wsPresent = true) (hw : s.wsOpen = true) :
    (∀ o : SendOutcome, (sendRequest s o).1.nextRequestId = s.nextRequestId + 1) ∧
    (runSends s os).nextRequestId = s.nextRequestId + os.length ∧
    (runSends s os).allocatedIds =
      s.allocatedIds ++ idsFrom s.nextRequestId os.length ∧
    (runSends s os).sentIds = s.sentIds ++ sentFrom s.nextRequestId os ∧
    List.Pairwise (· < ·) (idsFrom s.nextRequestId os.length) ∧
    (∀ m : Int, m ∈ sentFrom s.nextRequestId os →
      m ∈ idsFrom s.nextRequestId os.length) ∧
    (∀ i : Nat, i < os.length → os.getD i SendOutcome.ok ≠ SendOutcome.ok →
      (s.nextRequestId + i) ∈ idsFrom s.nextRequestId os.length ∧
      (s.nextRequestId + i) ∉ sentFrom s.nextRequestId os) := by
  have hspec := runSends_spec os s hp hw
  refine ⟨fun o => (sendRequest_allocates s o hp hw).1,
    hspec.1, hspec.2.1, hspec.2.2, idsFrom_pairwise os.length s.nextRequestId,
    ?_, ?_⟩
  · intro m hm
    obtain ⟨i, hik, _, him⟩ := (mem_sentFrom os s.nextRequestId m).mp hm
    exact (mem_idsFrom os.length s.nextRequestId m).mpr ⟨i, hik, him⟩
  · intro i hik hne
    constructor
    · exact (mem_idsFrom os.length s.nextRequestId _).mpr ⟨i, hik, rfl⟩
    · intro hm
      obtain ⟨j, hjk, hoj, hj⟩ := (mem_sentFrom os s.nextRequestId _).mp hm
      have hij : (i : Int) = (j : Int) := by omega
      have hij2 : i = j := by exact_mod_cast hij
      rw [hij2] at hne
      exact hne hoj

/-- C10 witness: three consecutive calls (success, signing throw, success)
from a connected session allocate ids 1, 2, 3; only 1 and 3 reach the
wire — id 2 is consumed but leaves a gap. -/
theorem request_ids_strictly_increasing_witness :
    (runSends connState [SendOutcome.ok, SendOutcome.signThrow, SendOutcome.ok]).nextRequestId =
      connState.nextRequestId + 3 ∧
    (runSends connState [SendOutcome.ok, SendOutcome.signThrow, SendOutcome.ok]).allocatedIds =
      connState.allocatedIds ++ idsFrom connState.nextRequestId 3 ∧
    (runSends connState [SendOutcome.ok, SendOutcome.signThrow, SendOutcome.ok]).sentIds =
      connState.sentIds ++
        sentFrom connState.nextRequestId [SendOutcome.ok, SendOutcome.signThrow, SendOutcome.ok] := by
  have h := request_ids_strictly_increasing connState
    [SendOutcome.ok, SendOutcome.signThrow, SendOutcome.ok] (by decide) (by decide)
  exact ⟨h.2.1, h.2.2.1, h.2.2.2.1⟩

end NitroAura
